import Mathlib

/-!
Shallow embedding of `src/packages/react-server-cli/src/compileClient.js`.

The module derives webpack entrypoints from a route table, extracts a
manifest from a compilation's stats object, and synthesizes client/server
routes files by string concatenation.  JavaScript objects are modelled as
association lists with JS-object assignment semantics (overwrite the value
of an existing key in place, otherwise append); JS `undefined` is modelled
with `Option`.
-/

set_option maxHeartbeats 1000000

namespace ReactServerCli

/-! ## JavaScript object model -/

/-- Assignment `obj[k] = v` on a JavaScript object modelled as an
association list: if the key is present its value is overwritten in place
(JS objects keep the original insertion position of a key), otherwise the
pair is appended at the end. -/
def objInsert {κ α : Type} [BEq κ] (obj : List (κ × α)) (k : κ) (v : α) : List (κ × α) :=
  if obj.any (fun p => p.1 == k) then
    obj.map (fun p => if p.1 == k then (k, v) else p)
  else
    obj ++ [(k, v)]

/-- Property read `obj[k]` on a JavaScript object modelled as an
association list: the value of the first (and, after `objInsert`, only)
entry with the given key, `none` when the key is absent. -/
def objLookup {κ α : Type} [BEq κ] (obj : List (κ × α)) (k : κ) : Option α :=
  match obj with
  | [] => none
  | p :: rest => if p.1 == k then some p.2 else objLookup rest k

/-! ## JavaScript values for the `method` field (compileClient.js lines 206-211) -/

/-- JavaScript value of a route's `method` field.  Route configurations use
`undefined`, `null`, strings, arrays of method-name strings, or plain
objects with string-valued fields, which is all the normalization code at
compileClient.js:206-211 can observe. -/
inductive JsValue where
  | undef
  | null
  | str (s : String)
  | arr (elems : List String)
  | obj (fields : List (String × String))
  deriving DecidableEq, Repr

/-- Strict equality `v === ...` against a freshly allocated object literal
(the `method === \x7b\x7d` test at compileClient.js:209).  In JavaScript,
`===` on objects is reference equality, and an object literal in the
comparison expression allocates a fresh object, so this test is false for
every value `v` whatsoever. -/
def strictEqFreshObjLiteral (_ : JsValue) : Bool := false

/-- Value of the JavaScript property read `v.length`: strings and arrays
have a numeric `length`; `undefined` and `null` would throw (but the
source short-circuits before reading `.length` on them); a plain
route-config object has no numeric `length` property, so the read yields
`undefined`, modelled as `none` (and `undefined === 0` is false). -/
def jsLength : JsValue → Option Nat
  | JsValue.undef => none
  | JsValue.null => none
  | JsValue.str s => some s.length
  | JsValue.arr elems => some elems.length
  | JsValue.obj _ => none

/-- Method normalization from compileClient.js:206-211:
`if (method === undefined || method === null || method === \x7b\x7d || method.length === 0) method = undefined`. -/
def normalizeMethod (method : JsValue) : JsValue :=
  if method == JsValue.undef || method == JsValue.null
      || strictEqFreshObjLiteral method
      || jsLength method == some 0 then
    JsValue.undef
  else
    method

/-! ## Node path and require modelling (external collaborators)

Node's `path` module and `require.resolve` are out-of-scope collaborators
(the spec treats them as simple deterministic I/O wrappers); they are
modelled as deterministic string functions covering the shapes this module
feeds them. -/

/-- Test whether `s` starts with `pre`, computed on the character lists
(extensionally the library's `String.startsWith`, but fully evaluable). -/
def strStartsWith (s pre : String) : Bool :=
  pre.toList.isPrefixOf s.toList

/-- Test whether `s` ends with `suf`, computed on the character lists
(extensionally the library's `String.endsWith`, but fully evaluable;
models the `/\.css$/` regex test when `suf` is `".css"`). -/
def strEndsWith (s suf : String) : Bool :=
  suf.toList.isSuffixOf s.toList

/-- Drop of the first `n` characters of `s`, computed on the character
list. -/
def strDrop (s : String) (n : Nat) : String :=
  String.mk (s.toList.drop n)

/-- Deterministic model of Node `path.resolve(base, p)` for the shapes used
here: an already-absolute `p` is returned as is, otherwise it is joined to
`base` with a separator. -/
def pathResolve (base p : String) : String :=
  if strStartsWith p "/" then p else base ++ "/" ++ p

/-- Deterministic model of Node `path.relative(src, dst)` for the shapes
used here: a `dst` lying under `src` has the `src` prefix removed,
otherwise `dst` is returned as is. -/
def pathRelative (src dst : String) : String :=
  if strStartsWith dst (src ++ "/") then strDrop dst (src ++ "/").length else dst

/-- Model of `require.resolve(path.resolve(routesDirAbsolute, modulePath))`
at compileClient.js:69: resolution of a page module to an absolute loadable
path.  The filesystem probing of `require.resolve` is an external
collaborator; the resolved path is modelled as the resolved absolute
path. -/
def requireResolvePage (routesDirAbsolute modulePath : String) : String :=
  pathResolve routesDirAbsolute modulePath

/-- Model of `require.resolve("webpack-dev-server/client")` at
compileClient.js:61, a fixed package resolved by the module system. -/
def webpackDevServerClientModule : String := "webpack-dev-server/client"

/-- Model of `require.resolve("webpack/hot/only-dev-server")` at
compileClient.js:62, a fixed package resolved by the module system. -/
def webpackHotOnlyDevServerModule : String := "webpack/hot/only-dev-server"

/-- Model of `require.resolve("react-server-core-middleware")` at
compileClient.js:183, a fixed package resolved by the module system. -/
def coreMiddlewareModule : String := "react-server-core-middleware"

/-! ## JSON serialization (JSON.stringify as used by the source) -/

/-- Escape of one character inside a JSON string literal (the cases
produced by `JSON.stringify` on the path/URL strings this module
serializes). -/
def jsonEscapeChar (c : Char) : String :=
  if c = '"' then "\\\""
  else if c = '\\' then "\\\\"
  else if c = '\n' then "\\n"
  else if c = '\t' then "\\t"
  else if c = '\r' then "\\r"
  else String.singleton c

/-- Model of `JSON.stringify` on a string. -/
def jsonString (s : String) : String :=
  "\"" ++ String.join (s.toList.map jsonEscapeChar) ++ "\""

/-- Model of `JSON.stringify(staticUrl)` where `staticUrl` may be `null`
(the pre-compile client variant passes `null`): `JSON.stringify(null)` is
the text `null`. -/
def jsonOfStaticUrl : Option String → String
  | some s => jsonString s
  | none => "null"

/-- Model of `JSON.stringify` on a method value followed by template
interpolation: `JSON.stringify(undefined)` is `undefined`, which a template
literal renders as the text `undefined`. -/
def jsValueJson : JsValue → Option String
  | JsValue.undef => none
  | JsValue.null => some "null"
  | JsValue.str s => some (jsonString s)
  | JsValue.arr elems =>
      some ("[" ++ String.intercalate "," (elems.map jsonString) ++ "]")
  | JsValue.obj fields =>
      some ("\x7b" ++ String.intercalate ","
        (fields.map (fun kv => jsonString kv.1 ++ ":" ++ jsonString kv.2)) ++ "\x7d")

/-- Text interpolated for `method: $\x7bJSON.stringify(method)\x7d` at
compileClient.js:216. -/
def methodField (m : JsValue) : String :=
  (jsValueJson m).getD "undefined"

/-! ## Compilation stats and manifest extraction (statsToManifest, lines 152-177) -/

/-- Webpack chunk as observed by `statsToManifest`: an id, an optional
name (webpack leaves `name` unset on unnamed chunks; an empty-string name
is falsy in the `if (chunk.name)` test, like unset), and the ordered list
of output file names. -/
structure Chunk where
  id : Nat
  name : Option String
  files : List String
  deriving DecidableEq, Repr

/-- Compilation stats as observed by `statsToManifest`: the chunk list of
`stats.compilation.chunks` and the overall build hash `stats.hash`. -/
structure Stats where
  chunks : List Chunk
  hash : String
  deriving DecidableEq, Repr

/-- Manifest produced by `statsToManifest`.  `jsChunksByName` and
`jsChunksById` map to `chunk.files[0]`, which is JS `undefined` (`none`)
when the chunk has no files; `cssChunksByName` only ever receives files the
CSS scan actually found. -/
structure Manifest where
  jsChunksByName : List (String × Option String)
  cssChunksByName : List (String × String)
  jsChunksById : List (Nat × Option String)
  hash : String
  deriving DecidableEq, Repr

/-- Truthiness of `chunk.name` in the `if (chunk.name)` test at
compileClient.js:157: an unset name and an empty-string name are falsy. -/
def chunkNameTruthy : Option String → Bool
  | some s => s != ""
  | none => false

/-- Accumulator for the chunk loop of `statsToManifest`: the three lookup
objects being built. -/
structure ManifestAcc where
  jsChunksByName : List (String × Option String)
  cssChunksByName : List (String × String)
  jsChunksById : List (Nat × Option String)
  deriving DecidableEq, Repr

/-- Body of the `for (const chunk of stats.compilation.chunks)` loop at
compileClient.js:156-170.  If the chunk's name is truthy, record
`jsChunksByName[name] = files[0]` and scan `files` from index 1 for the
first entry ending in `.css` (`List.find?` stops at the first match,
mirroring the `break`), recording it in `cssChunksByName` when found.
Regardless of the name, record `jsChunksById[id] = files[0]`. -/
def statsToManifestStep (acc : ManifestAcc) (chunk : Chunk) : ManifestAcc :=
  let acc1 :=
    if chunkNameTruthy chunk.name then
      let name := chunk.name.getD ""
      { acc with
        jsChunksByName := objInsert acc.jsChunksByName name chunk.files.head?
        cssChunksByName :=
          match (chunk.files.drop 1).find? (fun f => strEndsWith f ".css") with
          | some cssFile => objInsert acc.cssChunksByName name cssFile
          | none => acc.cssChunksByName }
    else acc
  { acc1 with jsChunksById := objInsert acc1.jsChunksById chunk.id chunk.files.head? }

/-- Translation of `statsToManifest` (compileClient.js:152-177): fold the
loop body over the chunk list starting from three empty objects, and pair
the result with `stats.hash`. -/
def statsToManifest (stats : Stats) : Manifest :=
  let acc := stats.chunks.foldl statsToManifestStep ⟨[], [], []⟩
  { jsChunksByName := acc.jsChunksByName
    cssChunksByName := acc.cssChunksByName
    jsChunksById := acc.jsChunksById
    hash := stats.hash }

/-! ## Route table and entrypoint derivation (lines 55-77, 264-272) -/

/-- The `page` value of a route: either a single module path (implicit
format `default`) or a mapping from format name to module path
(compileClient.js:264-272). -/
inductive PageValue where
  | single (modulePath : String)
  | formats (map : List (String × String))
  deriving DecidableEq, Repr

/-- Translation of `normalizeRoutesPage` (compileClient.js:267-272). -/
def normalizeRoutesPage : PageValue → List (String × String)
  | PageValue.single modulePath => [("default", modulePath)]
  | PageValue.formats map => map

/-- One route of the route table: URL path pattern, declared method value,
and page reference. -/
structure Route where
  path : String
  method : JsValue
  page : PageValue
  deriving DecidableEq, Repr

/-- Route table as consumed by compileClient: the `routes` object (an
ordered mapping from route name to route, names unique as JS object keys
are) and the optional `middleware` list. -/
structure RouteTable where
  routes : List (String × Route)
  middleware : Option (List String)
  deriving DecidableEq, Repr

/-- Translation of the dev-server URL fixup at compileClient.js:55-59: a
protocol-relative `outputUrl` (matching `/^\/\//`, i.e. starting with
`//`) gets `http:` prepended; any other URL passes through unchanged. -/
def webpackDevServerClientUrl (outputUrl : String) : String :=
  if strStartsWith outputUrl "//" then "http:" ++ outputUrl else outputUrl

/-- Translation of `entrypointBase` (compileClient.js:60-63): in hot mode,
the two transport-client modules, the first parameterized with the
dev-server client URL; otherwise empty. -/
def entrypointBase (hot : Bool) (outputUrl : String) : List String :=
  if hot then
    [webpackDevServerClientModule ++ "?" ++ webpackDevServerClientUrl outputUrl,
     webpackHotOnlyDevServerModule]
  else []

/-- Entry name composed at compileClient.js:71:
`routeName` when the format is `default`, else `routeName-format`. -/
def entrypointName (routeName format : String) : String :=
  routeName ++ (if format != "default" then "-" ++ format else "")

/-- Module list assigned to one entry at compileClient.js:71-75:
the base transport modules, then the bootstrap file, then the resolved
page module. -/
def entrypointModules (routesDirAbsolute bootstrapFile : String) (hot : Bool)
    (outputUrl : String) (formatModule : String) : List String :=
  entrypointBase hot outputUrl ++
    [bootstrapFile, requireResolvePage routesDirAbsolute formatModule]

/-- Translation of the entrypoint derivation loop (compileClient.js:64-77):
for each route and each format of its normalized page, assign the entry's
module list into the `entrypoints` object. -/
def entrypoints (routes : RouteTable) (routesDirAbsolute bootstrapFile : String)
    (hot : Bool) (outputUrl : String) : List (String × List String) :=
  routes.routes.foldl
    (fun eps rp =>
      (normalizeRoutesPage rp.2.page).foldl
        (fun eps fp =>
          objInsert eps (entrypointName rp.1 fp.1)
            (entrypointModules routesDirAbsolute bootstrapFile hot outputUrl fp.2))
        eps)
    []

/-! ## Manifest serialization (JSON.stringify(manifest) at line 188) -/

/-- Insertion of an id-keyed pair into a list sorted by ascending key,
modelling JavaScript's enumeration order for integer-like object keys. -/
def insertSortedById (p : Nat × Option String) :
    List (Nat × Option String) → List (Nat × Option String)
  | [] => [p]
  | q :: rest => if p.1 ≤ q.1 then p :: q :: rest else q :: insertSortedById p rest

/-- Sort of an id-keyed object by ascending numeric key: JavaScript
enumerates integer-like keys in ascending numeric order regardless of
insertion order, which is the order `JSON.stringify` serializes them in. -/
def sortById (l : List (Nat × Option String)) : List (Nat × Option String) :=
  l.foldr insertSortedById []

/-- Serialization of a name-keyed object whose values may be JS
`undefined`: `JSON.stringify` drops properties whose value is
`undefined`. -/
def jsonOfStrOptObj (obj : List (String × Option String)) : String :=
  "\x7b" ++ String.intercalate ","
    (obj.filterMap (fun kv => kv.2.map (fun v => jsonString kv.1 ++ ":" ++ jsonString v)))
    ++ "\x7d"

/-- Serialization of a name-keyed object with string values. -/
def jsonOfStrObj (obj : List (String × String)) : String :=
  "\x7b" ++ String.intercalate ","
    (obj.map (fun kv => jsonString kv.1 ++ ":" ++ jsonString kv.2)) ++ "\x7d"

/-- Serialization of the id-keyed object: integer keys are enumerated in
ascending numeric order and serialized as strings; `undefined` values are
dropped. -/
def jsonOfIdObj (obj : List (Nat × Option String)) : String :=
  "\x7b" ++ String.intercalate ","
    ((sortById obj).filterMap
      (fun kv => kv.2.map (fun v => jsonString (toString kv.1) ++ ":" ++ jsonString v)))
    ++ "\x7d"

/-- Model of `JSON.stringify(manifest)`: fields in the insertion order of
the object literal returned at compileClient.js:171-176
(`jsChunksByName`, `jsChunksById`, `cssChunksByName`, `hash`). -/
def manifestJson (m : Manifest) : String :=
  "\x7b\"jsChunksByName\":" ++ jsonOfStrOptObj m.jsChunksByName
    ++ ",\"jsChunksById\":" ++ jsonOfIdObj m.jsChunksById
    ++ ",\"cssChunksByName\":" ++ jsonOfStrObj m.cssChunksByName
    ++ ",\"hash\":" ++ jsonString m.hash ++ "\x7d"

/-! ## Routes file synthesis (writeWebpackCompatibleRoutesFile, lines 180-261) -/

/-- The `require` expression built for one caller-declared middleware
module at compileClient.js:184-186. -/
def middlewareRequireText (routesDir workingDirAbsolute mw : String) : String :=
  "unwrapEs6Module(require("
    ++ jsonString (pathRelative workingDirAbsolute (pathResolve routesDir mw))
    ++ "))"

/-- Header template pushed at compileClient.js:187-198: the embedded
manifest literal (or the text `undefined` when no manifest is supplied),
the ES6-unwrapping helper, the two core middleware entries built from
`staticUrl` and the manifest, and the caller-declared middleware. -/
def routesHeaderText (routesDir workingDirAbsolute : String) (staticUrl : Option String)
    (manifest : Option Manifest) (middleware : List String) : String :=
  let coreMiddleware := jsonString coreMiddlewareModule
  let existingMiddleware := middleware.map (middlewareRequireText routesDir workingDirAbsolute)
  "\nvar manifest = "
    ++ (match manifest with
        | some m => manifestJson m
        | none => "undefined") ++ ";\n"
    ++ "function unwrapEs6Module(module) \x7b return module.__esModule ? module.default : module \x7d\n"
    ++ "var coreJsMiddleware = require(" ++ coreMiddleware ++ ").coreJsMiddleware;\n"
    ++ "var coreCssMiddleware = require(" ++ coreMiddleware ++ ").coreCssMiddleware;\n"
    ++ "module.exports = \x7b\n"
    ++ "\tmiddleware:[\n"
    ++ "\t\tcoreJsMiddleware(" ++ jsonOfStaticUrl staticUrl ++ ", manifest),\n"
    ++ "\t\tcoreCssMiddleware(" ++ jsonOfStaticUrl staticUrl ++ ", manifest),\n"
    ++ "\t\t" ++ String.intercalate "," existingMiddleware ++ "\n"
    ++ "\t],\n"
    ++ "\troutes:\x7b"

/-- Body of the generated `done` function for one format
(compileClient.js:228-240): the client variant defers through
`require.ensure`; the server variant requires synchronously inside
`try/catch`, logging failures.  `relativePathToPage` arrives already
JSON-quoted, as in the source. -/
def doneBodyText (isClient : Bool) (relativePathToPage : String) : String :=
  if isClient then
    "\n\t\t\t\t\t\t\trequire.ensure(" ++ relativePathToPage ++ ", function() \x7b"
      ++ "\n\t\t\t\t\t\t\t\tcb(unwrapEs6Module(require(" ++ relativePathToPage ++ ")));"
      ++ "\n\t\t\t\t\t\t\t\x7d);"
  else
    "\n\t\t\t\t\t\t\ttry \x7b"
      ++ "\n\t\t\t\t\t\t\t\tcb(unwrapEs6Module(require(" ++ relativePathToPage ++ ")));"
      ++ "\n\t\t\t\t\t\t\t\x7d catch (e) \x7b"
      ++ "\n\t\t\t\t\t\t\t\tconsole.error(\x27Failed to load page at " ++ relativePathToPage
      ++ "\x27, e.stack);"
      ++ "\n\t\t\t\t\t\t\t\x7d"

/-- Text pushed for one format of one route (compileClient.js:221-245):
the factory returning the object with the `done` method. -/
def formatBlockText (routesDir workingDirAbsolute : String) (isClient : Bool)
    (format formatModule : String) : String :=
  let relativePathToPage :=
    jsonString (pathRelative workingDirAbsolute (pathResolve routesDir formatModule))
  "\n\t\t\t\t" ++ format ++ ": function() \x7b"
    ++ "\n\t\t\t\t\treturn \x7b"
    ++ "\n\t\t\t\t\t\tdone: function(cb) \x7b"
    ++ doneBodyText isClient relativePathToPage
    ++ "\n\t\t\t\t\t\t\x7d"
    ++ "\n\t\t\t\t\t\x7d;"
    ++ "\n\t\t\t\t\x7d,"

/-- Text pushed for one route (compileClient.js:200-249): route name, path
pattern, normalized method, and the per-format page factories. -/
def routeBlockText (routesDir workingDirAbsolute : String) (isClient : Bool)
    (routeName : String) (route : Route) : String :=
  let method := normalizeMethod route.method
  "\n\t\t" ++ routeName ++ ": \x7b"
    ++ "\n\t\t\tpath: " ++ jsonString route.path ++ ","
    ++ "\n\t\t\tmethod: " ++ methodField method ++ ","
    ++ "\n\t\t\tpage: \x7b"
    ++ String.join ((normalizeRoutesPage route.page).map
        (fun fp => formatBlockText routesDir workingDirAbsolute isClient fp.1 fp.2))
    ++ "\n\t\t\t\x7d,"
    ++ "\n\t\t\x7d,"

/-- Full content of the synthesized routes file: the concatenation of the
pushed template pieces of `writeWebpackCompatibleRoutesFile`
(compileClient.js:181-254), joined with the empty separator. -/
def routesFileContent (routes : RouteTable) (routesDir workingDirAbsolute : String)
    (staticUrl : Option String) (isClient : Bool) (manifest : Option Manifest) : String :=
  routesHeaderText routesDir workingDirAbsolute staticUrl manifest (routes.middleware.getD [])
    ++ String.join (routes.routes.map
        (fun rp => routeBlockText routesDir workingDirAbsolute isClient rp.1 rp.2))
    ++ "\n\t\x7d\n\x7d;"

/-- Target-specific fixed file name of the synthesized routes file
(compileClient.js:257). -/
def routesFilePath (workingDirAbsolute : String) (isClient : Bool) : String :=
  workingDirAbsolute ++ "/routes_" ++ (if isClient then "client" else "server") ++ ".js"

/-! ## Bootstrap file (writeClientBootstrapFile, lines 277-299) -/

/-- Interpolation of `JSON.stringify` on an optional log-level string into
the bootstrap template: `JSON.stringify(undefined)` is `undefined`,
rendered by the template literal as the text `undefined`. -/
def jsonOfLogLevel : Option String → String
  | some s => jsonString s
  | none => "undefined"

/-- Content of the generated bootstrap file `entry.js`
(compileClient.js:279-297). -/
def clientBootstrapContent (logLevel timingLogLevel gaugeLogLevel : Option String) : String :=
  "\n\t\tif (typeof window !== \"undefined\") \x7b"
    ++ "\n\t\t\twindow.__setReactServerBase = function(path) \x7b"
    ++ "\n\t\t\t\t// according to http://webpack.github.io/docs/configuration.html#output-publicpath"
    ++ "\n\t\t\t\t// we should never set __webpack_public_path__ when hot module replacement is on."
    ++ "\n\t\t\t\tif (!module.hot) \x7b"
    ++ "\n\t\t\t\t\t__webpack_public_path__ = path;"
    ++ "\n\t\t\t\t\x7d"
    ++ "\n\t\t\t\twindow.__reactServerBase = path;"
    ++ "\n\t\t\t\x7d"
    ++ "\n\t\t\x7d"
    ++ "\n\t\tvar reactServer = require(\"react-server\");"
    ++ "\n\t\twindow.rfBootstrap = function() \x7b"
    ++ "\n\t\t\treactServer.logging.setLevel(\x27main\x27,  " ++ jsonOfLogLevel logLevel ++ ");"
    ++ "\n\t\t\treactServer.logging.setLevel(\x27time\x27,  " ++ jsonOfLogLevel timingLogLevel ++ ");"
    ++ "\n\t\t\treactServer.logging.setLevel(\x27gauge\x27, " ++ jsonOfLogLevel gaugeLogLevel ++ ");"
    ++ "\n\t\t\tnew reactServer.ClientController(\x7broutes: require(\"./routes_client\")\x7d).init();"
    ++ "\n\t\t\x7d"

/-! ## Runtime semantics of the generated server `done` (lines 234-239) -/

/-- CommonJS module value as observed by `unwrapEs6Module`: the
`__esModule` marker, the `default` member, and the module value itself.
Module values are represented by opaque string payloads, which is all the
generated code inspects. -/
structure PageModule where
  esModule : Bool
  defaultExport : String
  raw : String
  deriving DecidableEq, Repr

/-- Translation of `unwrapEs6Module` in the generated file
(compileClient.js:189): `module.__esModule ? module.default : module`. -/
def unwrapEs6Module (m : PageModule) : String :=
  if m.esModule then m.defaultExport else m.raw

/-- Observable outcome of one call to a generated `done(cb)`:
the argument `cb` was invoked with (if it was invoked at all), the lines
written to the error stream, and the exception escaping to the caller of
`done` (if any). -/
structure DoneOutcome where
  callbackArg : Option String
  errorLog : List String
  thrown : Option String
  deriving DecidableEq, Repr

/-- The `console.error` line of the generated catch block
(compileClient.js:238): the message names the JSON-quoted resolved path
and is followed by the exception's stack trace. -/
def loadFailureLog (relativePathToPage stack : String) : String :=
  "Failed to load page at " ++ relativePathToPage ++ " " ++ stack

/-- Runtime semantics of the server-variant `done` body generated at
compileClient.js:234-239:
`try \x7b cb(unwrapEs6Module(require(path))) \x7d catch (e) \x7b console.error(...) \x7d`.
`requireResult` is the outcome of `require` (`Except.error` carries the
thrown exception's stack trace); `cb` may itself throw, returning
`some stack`.  The whole body sits inside the `try`, so no exception ever
escapes to the caller of `done`. -/
def serverDone (requireResult : Except String PageModule)
    (relativePathToPage : String) (cb : String → Option String) : DoneOutcome :=
  match requireResult with
  | Except.error stack =>
      { callbackArg := none
        errorLog := [loadFailureLog relativePathToPage stack]
        thrown := none }
  | Except.ok m =>
      match cb (unwrapEs6Module m) with
      | none =>
          { callbackArg := some (unwrapEs6Module m), errorLog := [], thrown := none }
      | some stack =>
          { callbackArg := some (unwrapEs6Module m)
            errorLog := [loadFailureLog relativePathToPage stack]
            thrown := none }

/-! ## compileClient entry (default export, lines 19-124) -/

/-- JavaScript string-or (`a || b`) on optional option values: a missing
(`undefined`/`null`) or empty-string value is falsy and yields `b`. -/
def jsStringOr (a b : Option String) : Option String :=
  match a with
  | some s => if s == "" then b else some s
  | none => b

/-- The legacy-name fallback at compileClient.js:85:
`webpackConfig || opts["webpack-config"]`. -/
def userWebpackConfigOpt (webpackConfig legacyWebpackConfig : Option String) : Option String :=
  jsStringOr webpackConfig legacyWebpackConfig

/-- Caller options of the default export (compileClient.js:20-31), with
`none` standing for an omitted option so the destructuring defaults
apply. -/
structure CompileOptions where
  routes : RouteTable
  webpackConfig : Option String := none
  legacyWebpackConfig : Option String := none
  workingDir : Option String := none
  routesDir : Option String := none
  outputDir : Option String := none
  outputUrl : Option String := none
  hot : Option Bool := none
  minify : Option Bool := none
  stats : Option Bool := none
  longTermCaching : Option Bool := none
  logLevel : Option String := none
  timingLogLevel : Option String := none
  gaugeLogLevel : Option String := none
  deriving Repr

/-- Destructuring default `workingDir = "./__clientTemp"`. -/
def CompileOptions.workingDirD (o : CompileOptions) : String :=
  o.workingDir.getD "./__clientTemp"

/-- Destructuring default `routesDir = "."`. -/
def CompileOptions.routesDirD (o : CompileOptions) : String :=
  o.routesDir.getD "."

/-- Destructuring default `outputDir = workingDir + "/build"`. -/
def CompileOptions.outputDirD (o : CompileOptions) : String :=
  o.outputDir.getD (o.workingDirD ++ "/build")

/-- Destructuring default `outputUrl = "/static/"`. -/
def CompileOptions.outputUrlD (o : CompileOptions) : String :=
  o.outputUrl.getD "/static/"

/-- Destructuring default `hot = true`. -/
def CompileOptions.hotD (o : CompileOptions) : Bool :=
  o.hot.getD true

/-- Destructuring default `longTermCaching = false`. -/
def CompileOptions.longTermCachingD (o : CompileOptions) : Bool :=
  o.longTermCaching.getD false

/-- The error message thrown at compileClient.js:36. -/
def hotLongTermCachingError : String :=
  "Hot reload cannot be used with long-term caching. Please disable either long-term caching or hot reload."

/-- Filesystem mutation performed by the synchronous part of
compileClient, in program order. -/
inductive FsEffect where
  | mkdir (path : String)
  | writeFile (path : String) (content : String)
  deriving DecidableEq, Repr

/-- Result of the synchronous setup phase of the default export. -/
structure CompileSetup where
  effects : List FsEffect
  entrypoints : List (String × List String)
  bootstrapFile : String
  clientRoutesFile : String
  userWebpackConfig : Option String
  deriving Repr

/-- Translation of the synchronous body of the default export
(compileClient.js:19-97) up to the construction of the webpack config:
the hot/longTermCaching validation at line 33 throws before the `mkdirp`
calls at lines 40-42, so the error branch carries no filesystem effect;
the success branch records, in program order, the two directory creations,
the bootstrap file write, and the pre-compile client routes file write,
along with the derived entrypoints. -/
def compileClientSetup (cwd : String) (opts : CompileOptions) : Except String CompileSetup :=
  if opts.longTermCachingD && opts.hotD then
    Except.error hotLongTermCachingError
  else
    let workingDirAbsolute := pathResolve cwd opts.workingDirD
    let outputDirAbsolute := pathResolve cwd opts.outputDirD
    let routesDirAbsolute := pathResolve cwd opts.routesDirD
    let bootstrapFile := workingDirAbsolute ++ "/entry.js"
    let eps := entrypoints opts.routes routesDirAbsolute bootstrapFile opts.hotD opts.outputUrlD
    let clientRoutesFile := routesFilePath workingDirAbsolute true
    Except.ok
      { effects :=
          [FsEffect.mkdir workingDirAbsolute,
           FsEffect.mkdir outputDirAbsolute,
           FsEffect.writeFile bootstrapFile
             (clientBootstrapContent opts.logLevel opts.timingLogLevel opts.gaugeLogLevel),
           FsEffect.writeFile clientRoutesFile
             (routesFileContent opts.routes opts.routesDirD workingDirAbsolute none true none)]
        entrypoints := eps
        bootstrapFile := bootstrapFile
        clientRoutesFile := clientRoutesFile
        userWebpackConfig := userWebpackConfigOpt opts.webpackConfig opts.legacyWebpackConfig }

/-! ## Generic lemmas about the JavaScript object model -/

theorem objLookup_eq_none_iff {κ α : Type} [BEq κ] [LawfulBEq κ] {obj : List (κ × α)} {k : κ} :
    objLookup obj k = none ↔ obj.any (fun p => p.1 == k) = false := by
  induction obj with
  | nil => simp [objLookup]
  | cons p rest ih =>
      by_cases h : p.1 == k
      · simp [objLookup, h]
      · simp [objLookup, h, ih]

theorem objLookup_append {κ α : Type} [BEq κ] (l₁ l₂ : List (κ × α)) (k : κ) :
    objLookup (l₁ ++ l₂) k =
      match objLookup l₁ k with
      | some v => some v
      | none => objLookup l₂ k := by
  induction l₁ with
  | nil => simp [objLookup]
  | cons p rest ih =>
      by_cases h : p.1 == k
      · simp [objLookup, h]
      · simp [objLookup, h, ih]

theorem objLookup_map_overwrite_self {κ α : Type} [BEq κ] [LawfulBEq κ]
    {obj : List (κ × α)} {k : κ} (v : α)
    (hany : obj.any (fun p => p.1 == k) = true) :
    objLookup (obj.map (fun p => if p.1 == k then (k, v) else p)) k = some v := by
  induction obj with
  | nil => simp at hany
  | cons p rest ih =>
      by_cases h : p.1 == k
      · simp [objLookup, h]
      · simp only [List.any_cons, h, Bool.false_or] at hany
        simp [objLookup, h, ih hany]

theorem objLookup_map_overwrite_ne {κ α : Type} [BEq κ] [LawfulBEq κ]
    {obj : List (κ × α)} {k k' : κ} (v : α) (hne : k' ≠ k) :
    objLookup (obj.map (fun p => if p.1 == k then (k, v) else p)) k' = objLookup obj k' := by
  have h1 : (k == k') = false := beq_eq_false_iff_ne.mpr (Ne.symm hne)
  induction obj with
  | nil => simp [objLookup]
  | cons p rest ih =>
      by_cases h : p.1 == k
      · have h2 : (p.1 == k') = false := by
          rw [eq_of_beq h]; exact h1
        simp [objLookup, h, h1, h2, ih]
      · by_cases h' : p.1 == k'
        · simp [objLookup, h, h']
        · simp [objLookup, h, h', ih]

theorem objLookup_objInsert_self {κ α : Type} [BEq κ] [LawfulBEq κ]
    (obj : List (κ × α)) (k : κ) (v : α) :
    objLookup (objInsert obj k v) k = some v := by
  unfold objInsert
  by_cases hany : obj.any (fun p => p.1 == k) = true
  · rw [if_pos hany]
    exact objLookup_map_overwrite_self v hany
  · rw [if_neg hany]
    rw [objLookup_append]
    rw [objLookup_eq_none_iff.mpr (Bool.eq_false_iff.mpr hany)]
    simp [objLookup]

theorem objLookup_objInsert_ne {κ α : Type} [BEq κ] [LawfulBEq κ]
    (obj : List (κ × α)) (k k' : κ) (v : α) (hne : k' ≠ k) :
    objLookup (objInsert obj k v) k' = objLookup obj k' := by
  unfold objInsert
  by_cases hany : obj.any (fun p => p.1 == k) = true
  · rw [if_pos hany]
    exact objLookup_map_overwrite_ne v hne
  · rw [if_neg hany]
    rw [objLookup_append]
    have h1 : (k == k') = false := beq_eq_false_iff_ne.mpr (Ne.symm hne)
    cases hl : objLookup obj k' <;> simp [objLookup, h1]

theorem mem_objInsert {κ α : Type} [BEq κ] {obj : List (κ × α)} {k : κ} {v : α} {p : κ × α}
    (h : p ∈ objInsert obj k v) : p = (k, v) ∨ p ∈ obj := by
  unfold objInsert at h
  by_cases hany : obj.any (fun q => q.1 == k)
  · simp only [hany, if_true] at h
    obtain ⟨q, hq, hpq⟩ := List.mem_map.mp h
    by_cases hqk : q.1 == k
    · simp only [hqk, if_true] at hpq
      exact Or.inl hpq.symm
    · simp only [hqk, if_false] at hpq
      exact Or.inr (hpq ▸ hq)
  · simp only [hany, if_false] at h
    rcases List.mem_append.mp h with h' | h'
    · exact Or.inr h'
    · simp at h'
      exact Or.inl h'

theorem objLookup_of_mem_of_nodup {κ α : Type} [BEq κ] [LawfulBEq κ]
    {obj : List (κ × α)} (hnd : (obj.map Prod.fst).Nodup) {k : κ} {v : α}
    (hm : (k, v) ∈ obj) : objLookup obj k = some v := by
  induction obj with
  | nil => simp at hm
  | cons p rest ih =>
      simp only [List.map_cons, List.nodup_cons] at hnd
      rcases List.mem_cons.mp hm with h | h
      · simp [objLookup, ← h]
      · have hne : (p.1 == k) = false := by
          apply beq_eq_false_iff_ne.mpr
          intro hcontra
          exact hnd.1 (hcontra ▸ List.mem_map.mpr ⟨(k, v), h, rfl⟩)
        simp [objLookup, hne, ih hnd.2 h]

theorem foldl_objInsert_fresh {κ α : Type} [BEq κ] [LawfulBEq κ] :
    ∀ (events : List (κ × α)) (acc : List (κ × α)),
      ((events.map Prod.fst).Nodup) →
      (∀ k ∈ events.map Prod.fst, objLookup acc k = none) →
      events.foldl (fun o kv => objInsert o kv.1 kv.2) acc = acc ++ events
  | [], acc, _, _ => by simp
  | (k, v) :: rest, acc, hnd, hfresh => by
      simp only [List.map_cons, List.nodup_cons] at hnd
      have hnone : objLookup acc k = none := hfresh k (by simp)
      have hins : objInsert acc k v = acc ++ [(k, v)] := by
        unfold objInsert
        rw [objLookup_eq_none_iff.mp hnone]
        simp
      have hfresh' : ∀ k' ∈ rest.map Prod.fst, objLookup (acc ++ [(k, v)]) k' = none := by
        intro k' hk'
        rw [objLookup_append]
        rw [hfresh k' (by simp [hk'])]
        have hne : (k == k') = false := by
          apply beq_eq_false_iff_ne.mpr
          intro hcontra
          exact hnd.1 (hcontra ▸ hk')
        simp [objLookup, hne]
      rw [List.foldl_cons, hins,
        foldl_objInsert_fresh rest (acc ++ [(k, v)]) hnd.2 hfresh']
      simp

theorem foldl_objInsert_values {κ α : Type} [BEq κ] (P : κ × α → Prop) :
    ∀ (events : List (κ × α)) (acc : List (κ × α)),
      (∀ p ∈ acc, P p) →
      (∀ kv ∈ events, P kv) →
      ∀ p ∈ events.foldl (fun o kv => objInsert o kv.1 kv.2) acc, P p
  | [], _, hacc, _, p, hp => hacc p hp
  | (k, v) :: rest, acc, hacc, hev, p, hp => by
      refine foldl_objInsert_values P rest (objInsert acc k v) ?_ ?_ p hp
      · intro q hq
        rcases mem_objInsert hq with h | h
        · exact h ▸ hev (k, v) (by simp)
        · exact hacc q h
      · intro kv hkv
        exact hev kv (List.mem_cons_of_mem _ hkv)

/-! ## Characterization of statsToManifest -/

/-- Key under which a chunk is recorded in the name-keyed objects: its
name when truthy, nothing otherwise. -/
def truthyName (c : Chunk) : Option String :=
  match c.name with
  | some s => if s != "" then some s else none
  | none => none

theorem truthyName_eq_some_iff {c : Chunk} {n : String} :
    truthyName c = some n ↔ chunkNameTruthy c.name = true ∧ c.name.getD "" = n := by
  cases hc : c.name with
  | none => simp [truthyName, chunkNameTruthy, hc]
  | some s =>
      by_cases hs : s != "" <;> simp [truthyName, chunkNameTruthy, hc, hs]

theorem statsToManifestStep_jsChunksById (acc : ManifestAcc) (c : Chunk) :
    (statsToManifestStep acc c).jsChunksById =
      objInsert acc.jsChunksById c.id c.files.head? := by
  unfold statsToManifestStep
  by_cases h : chunkNameTruthy c.name <;> simp [h]

theorem statsToManifestStep_jsChunksByName (acc : ManifestAcc) (c : Chunk) :
    (statsToManifestStep acc c).jsChunksByName =
      if chunkNameTruthy c.name then
        objInsert acc.jsChunksByName (c.name.getD "") c.files.head?
      else acc.jsChunksByName := by
  unfold statsToManifestStep
  by_cases h : chunkNameTruthy c.name <;> simp [h]

theorem statsToManifestStep_cssChunksByName (acc : ManifestAcc) (c : Chunk) :
    (statsToManifestStep acc c).cssChunksByName =
      if chunkNameTruthy c.name then
        match (c.files.drop 1).find? (fun f => strEndsWith f ".css") with
        | some cssFile => objInsert acc.cssChunksByName (c.name.getD "") cssFile
        | none => acc.cssChunksByName
      else acc.cssChunksByName := by
  unfold statsToManifestStep
  by_cases h : chunkNameTruthy c.name <;> simp [h]

theorem statsToManifestStep_byName_lookup_ne (acc : ManifestAcc) (d : Chunk) (n : String)
    (h : truthyName d ≠ some n) :
    objLookup (statsToManifestStep acc d).jsChunksByName n = objLookup acc.jsChunksByName n ∧
    objLookup (statsToManifestStep acc d).cssChunksByName n = objLookup acc.cssChunksByName n := by
  by_cases ht : chunkNameTruthy d.name
  · have hm : truthyName d = some (d.name.getD "") := truthyName_eq_some_iff.mpr ⟨ht, rfl⟩
    have hne : n ≠ d.name.getD "" := by
      intro hc
      exact h (hm.trans (by rw [hc]))
    constructor
    · rw [statsToManifestStep_jsChunksByName, if_pos ht]
      exact objLookup_objInsert_ne _ _ _ _ hne
    · cases hfind : (d.files.drop 1).find? (fun f => strEndsWith f ".css") with
      | none => rw [statsToManifestStep_cssChunksByName, if_pos ht]; simp only [hfind]
      | some f =>
          rw [statsToManifestStep_cssChunksByName, if_pos ht]
          simp only [hfind]
          exact objLookup_objInsert_ne _ _ _ _ hne
  · have ht' : chunkNameTruthy d.name = false := Bool.eq_false_iff.mpr ht
    constructor
    · rw [statsToManifestStep_jsChunksByName, if_neg ht]
    · rw [statsToManifestStep_cssChunksByName, if_neg ht]

theorem manifestFold_jsById_preserve :
    ∀ (l : List Chunk) (acc : ManifestAcc) (i : Nat),
      (∀ c ∈ l, c.id ≠ i) →
      objLookup (l.foldl statsToManifestStep acc).jsChunksById i = objLookup acc.jsChunksById i
  | [], _, _, _ => rfl
  | c :: rest, acc, i, h => by
      rw [List.foldl_cons]
      rw [manifestFold_jsById_preserve rest _ i
        (fun c' hc' => h c' (List.mem_cons_of_mem _ hc'))]
      rw [statsToManifestStep_jsChunksById]
      exact objLookup_objInsert_ne _ _ _ _ (Ne.symm (h c (by simp)))

theorem manifestFold_byName_preserve :
    ∀ (l : List Chunk) (acc : ManifestAcc) (n : String),
      (∀ c ∈ l, truthyName c ≠ some n) →
      objLookup (l.foldl statsToManifestStep acc).jsChunksByName n =
        objLookup acc.jsChunksByName n ∧
      objLookup (l.foldl statsToManifestStep acc).cssChunksByName n =
        objLookup acc.cssChunksByName n
  | [], _, _, _ => ⟨rfl, rfl⟩
  | c :: rest, acc, n, h => by
      rw [List.foldl_cons]
      have hrest := manifestFold_byName_preserve rest (statsToManifestStep acc c) n
        (fun c' hc' => h c' (List.mem_cons_of_mem _ hc'))
      have hstep := statsToManifestStep_byName_lookup_ne acc c n (h c (by simp))
      exact ⟨hrest.1.trans hstep.1, hrest.2.trans hstep.2⟩

theorem manifestFold_jsById_mem :
    ∀ (l : List Chunk) (acc : ManifestAcc),
      (l.map Chunk.id).Nodup →
      ∀ c ∈ l, objLookup (l.foldl statsToManifestStep acc).jsChunksById c.id = some c.files.head?
  | [], _, _, c, hc => absurd hc (by simp)
  | d :: rest, acc, hnd, c, hc => by
      simp only [List.map_cons, List.nodup_cons] at hnd
      rw [List.foldl_cons]
      rcases List.mem_cons.mp hc with h | h
      · have hids : ∀ c' ∈ rest, c'.id ≠ c.id := by
          intro c' hc' hcontra
          have hcd : c'.id = d.id := by rw [hcontra, h]
          exact hnd.1 (hcd ▸ List.mem_map.mpr ⟨c', hc', rfl⟩)
        rw [manifestFold_jsById_preserve rest _ c.id hids,
          statsToManifestStep_jsChunksById, h]
        exact objLookup_objInsert_self _ _ _
      · exact manifestFold_jsById_mem rest _ hnd.2 c h

theorem manifestFold_byName_mem :
    ∀ (l : List Chunk) (acc : ManifestAcc),
      (l.filterMap truthyName).Nodup →
      (∀ c ∈ l, ∀ n, truthyName c = some n →
        objLookup acc.jsChunksByName n = none ∧ objLookup acc.cssChunksByName n = none) →
      ∀ c ∈ l, ∀ n, truthyName c = some n →
        objLookup (l.foldl statsToManifestStep acc).jsChunksByName n = some c.files.head? ∧
        objLookup (l.foldl statsToManifestStep acc).cssChunksByName n =
          (c.files.drop 1).find? (fun f => strEndsWith f ".css")
  | [], _, _, _, c, hc, _, _ => absurd hc (by simp)
  | d :: rest, acc, hnd, hacc, c, hc, n, hn => by
      rw [List.foldl_cons]
      rcases List.mem_cons.mp hc with h | h
      · have hdn : truthyName d = some n := h ▸ hn
        have hnd' : n ∉ rest.filterMap truthyName ∧ (rest.filterMap truthyName).Nodup := by
          rw [List.filterMap_cons, hdn] at hnd
          exact ⟨(List.nodup_cons.mp hnd).1, (List.nodup_cons.mp hnd).2⟩
        have hrestne : ∀ c' ∈ rest, truthyName c' ≠ some n := by
          intro c' hc' hcontra
          exact hnd'.1 (List.mem_filterMap.mpr ⟨c', hc', hcontra⟩)
        have hpres := manifestFold_byName_preserve rest (statsToManifestStep acc d) n hrestne
        have ht : chunkNameTruthy d.name = true := (truthyName_eq_some_iff.mp hdn).1
        have hkey : d.name.getD "" = n := (truthyName_eq_some_iff.mp hdn).2
        have hjs : objLookup (statsToManifestStep acc d).jsChunksByName n = some d.files.head? := by
          rw [statsToManifestStep_jsChunksByName, if_pos ht, hkey]
          exact objLookup_objInsert_self _ _ _
        have hcss : objLookup (statsToManifestStep acc d).cssChunksByName n =
            (d.files.drop 1).find? (fun f => strEndsWith f ".css") := by
          cases hfind : (d.files.drop 1).find? (fun f => strEndsWith f ".css") with
          | none =>
              rw [statsToManifestStep_cssChunksByName, if_pos ht]
              simp only [hfind]
              exact (hacc d (by simp) n hdn).2
          | some f =>
              rw [statsToManifestStep_cssChunksByName, if_pos ht]
              simp only [hfind, hkey]
              exact objLookup_objInsert_self _ _ _
        rw [h]
        exact ⟨hpres.1.trans hjs, hpres.2.trans hcss⟩
      · have hnd' : (rest.filterMap truthyName).Nodup := by
          rw [List.filterMap_cons] at hnd
          cases htd : truthyName d with
          | none => rw [htd] at hnd; exact hnd
          | some m => rw [htd] at hnd; exact (List.nodup_cons.mp hnd).2
        have hacc' : ∀ c' ∈ rest, ∀ n', truthyName c' = some n' →
            objLookup (statsToManifestStep acc d).jsChunksByName n' = none ∧
            objLookup (statsToManifestStep acc d).cssChunksByName n' = none := by
          intro c' hc' n' hn'
          have hdne : truthyName d ≠ some n' := by
            intro hcontra
            rw [List.filterMap_cons, hcontra] at hnd
            exact (List.nodup_cons.mp hnd).1 (List.mem_filterMap.mpr ⟨c', hc', hn'⟩)
          have hstep := statsToManifestStep_byName_lookup_ne acc d n' hdne
          have horig := hacc c' (List.mem_cons_of_mem _ hc') n' hn'
          exact ⟨hstep.1.trans horig.1, hstep.2.trans horig.2⟩
        exact manifestFold_byName_mem rest (statsToManifestStep acc d) hnd' hacc' c h n hn

/-! ## Characterization of entrypoint derivation -/

/-- The sequence of object assignments performed by the entrypoint loop, in
iteration order: one `(entry name, module list)` event per (route, format)
pair. -/
def entrypointEvents (routes : RouteTable) (routesDirAbsolute bootstrapFile : String)
    (hot : Bool) (outputUrl : String) : List (String × List String) :=
  routes.routes.flatMap (fun rp =>
    (normalizeRoutesPage rp.2.page).map (fun fp =>
      (entrypointName rp.1 fp.1,
       entrypointModules routesDirAbsolute bootstrapFile hot outputUrl fp.2)))

theorem foldl_flatMap_eq {α β γ : Type} (f : γ → List α) (g : β → α → β) :
    ∀ (l : List γ) (init : β),
      (l.flatMap f).foldl g init = l.foldl (fun acc x => (f x).foldl g acc) init
  | [], _ => rfl
  | x :: rest, init => by
      rw [List.flatMap_cons, List.foldl_append, List.foldl_cons]
      exact foldl_flatMap_eq f g rest _

theorem entrypoints_eq_foldl_events (routes : RouteTable)
    (routesDirAbsolute bootstrapFile : String) (hot : Bool) (outputUrl : String) :
    entrypoints routes routesDirAbsolute bootstrapFile hot outputUrl =
      (entrypointEvents routes routesDirAbsolute bootstrapFile hot outputUrl).foldl
        (fun o kv => objInsert o kv.1 kv.2) [] := by
  unfold entrypoints entrypointEvents
  rw [foldl_flatMap_eq]
  have hfun :
      (fun (eps : List (String × List String)) (rp : String × Route) =>
        ((normalizeRoutesPage rp.2.page).map (fun fp =>
          (entrypointName rp.1 fp.1,
           entrypointModules routesDirAbsolute bootstrapFile hot outputUrl fp.2))).foldl
          (fun o kv => objInsert o kv.1 kv.2) eps) =
      (fun (eps : List (String × List String)) (rp : String × Route) =>
        (normalizeRoutesPage rp.2.page).foldl
          (fun eps fp =>
            objInsert eps (entrypointName rp.1 fp.1)
              (entrypointModules routesDirAbsolute bootstrapFile hot outputUrl fp.2))
          eps) := by
    funext eps rp
    rw [List.foldl_map]
  rw [hfun]

theorem entrypointEvents_length (routes : RouteTable)
    (routesDirAbsolute bootstrapFile : String) (hot : Bool) (outputUrl : String) :
    (entrypointEvents routes routesDirAbsolute bootstrapFile hot outputUrl).length =
      (routes.routes.map (fun rp => (normalizeRoutesPage rp.2.page).length)).sum := by
  unfold entrypointEvents
  rw [List.length_flatMap]
  congr 1
  apply List.map_congr_left
  intro rp _
  exact List.length_map _ _

theorem mem_entrypointEvents {routes : RouteTable}
    {routesDirAbsolute bootstrapFile : String} {hot : Bool} {outputUrl : String}
    {rp : String × Route} {fp : String × String}
    (hrp : rp ∈ routes.routes) (hfp : fp ∈ normalizeRoutesPage rp.2.page) :
    (entrypointName rp.1 fp.1,
     entrypointModules routesDirAbsolute bootstrapFile hot outputUrl fp.2) ∈
      entrypointEvents routes routesDirAbsolute bootstrapFile hot outputUrl := by
  unfold entrypointEvents
  exact List.mem_flatMap.mpr ⟨rp, hrp, List.mem_map.mpr ⟨fp, hfp, rfl⟩⟩

theorem entrypoints_values_shape (routes : RouteTable)
    (routesDirAbsolute bootstrapFile : String) (hot : Bool) (outputUrl : String) :
    ∀ p ∈ entrypoints routes routesDirAbsolute bootstrapFile hot outputUrl,
      ∃ modPath, p.2 = entrypointModules routesDirAbsolute bootstrapFile hot outputUrl modPath := by
  rw [entrypoints_eq_foldl_events]
  refine foldl_objInsert_values
    (fun p => ∃ m, p.2 = entrypointModules routesDirAbsolute bootstrapFile hot outputUrl m)
    _ [] (by simp) ?_
  intro kv hkv
  unfold entrypointEvents at hkv
  obtain ⟨rp, hrp, hmap⟩ := List.mem_flatMap.mp hkv
  obtain ⟨fp, hfp, heq⟩ := List.mem_map.mp hmap
  exact ⟨fp.2, by rw [← heq]⟩

/-! ## Concrete inputs used to instantiate the claims -/

/-- Manifest-extraction example: chunk 1 named `home` with a JS and a CSS
file, unnamed chunk 2 with a single JS file, build hash `abc`. -/
def exampleStats : Stats :=
  ⟨[⟨1, some "home", ["home.js", "home.css"]⟩, ⟨2, none, ["vendor.js"]⟩], "abc"⟩

/-- CSS-interleaving example: chunk `x` with a hot-update JS file between
the entry JS and the CSS file, plus chunk `y` with no CSS output. -/
def cssExampleStats : Stats :=
  ⟨[⟨1, some "x", ["x.js", "x.abc123.hot-update.js", "x.css"]⟩,
    ⟨2, some "y", ["y.js"]⟩], "h"⟩

/-- A named chunk whose files list is empty. -/
def emptyFilesStats : Stats :=
  ⟨[⟨7, some "empty", []⟩], "h"⟩

/-- Two routes whose (routeName, format) pairs collide on the derived
entry name: route `a` with format `b` and route `a-b` with format
`default` both yield the entry name `a-b`. -/
def collidingRoutes : RouteTable :=
  ⟨[("a", ⟨"/a", JsValue.undef, PageValue.formats [("b", "p1.js")]⟩),
    ("a-b", ⟨"/ab", JsValue.undef, PageValue.single "p2.js"⟩)], none⟩

/-- A small route table: route `Home` with the implicit default format and
route `About` with two formats. -/
def exampleRoutes : RouteTable :=
  ⟨[("Home", ⟨"/", JsValue.str "GET", PageValue.single "pages/home.js"⟩),
    ("About", ⟨"/about", JsValue.undef,
      PageValue.formats [("default", "pages/about.js"), ("mobile", "pages/about-mobile.js")]⟩)],
   none⟩

/-- A small manifest used to instantiate the synthesizer. -/
def exampleManifest : Manifest :=
  ⟨[("Home", some "Home.js")], [("Home", "Home.css")], [(0, some "Home.js")], "abc"⟩

/-- Options with hot mode and long-term caching both explicitly enabled. -/
def hotCachingOpts : CompileOptions :=
  { routes := ⟨[], none⟩, hot := some true, longTermCaching := some true }

/-! ## Claims -/

/-- C1: for every compilation result whose chunk ids and truthy chunk
names are unique (the JS-object key invariant of one compilation),
`statsToManifest` records `jsChunksByName[name] = files[0]` for every
chunk with a truthy name, `jsChunksById[id] = files[0]` for every chunk
regardless of name, and carries the compilation's overall hash.  The
witness instantiates this on the spec's concrete example and checks the
full result record, including `cssChunksByName = \x7bhome: "home.css"\x7d`. -/
theorem statsToManifest_records_chunks_and_hash (stats : Stats)
    (hids : (stats.chunks.map Chunk.id).Nodup)
    (hnames : (stats.chunks.filterMap truthyName).Nodup) :
    (∀ c ∈ stats.chunks, ∀ n, truthyName c = some n →
      objLookup (statsToManifest stats).jsChunksByName n = some c.files.head?) ∧
    (∀ c ∈ stats.chunks,
      objLookup (statsToManifest stats).jsChunksById c.id = some c.files.head?) ∧
    (statsToManifest stats).hash = stats.hash := by
  refine ⟨?_, ?_, rfl⟩
  · intro c hc n hn
    exact (manifestFold_byName_mem stats.chunks ⟨[], [], []⟩ hnames
      (fun _ _ _ _ => ⟨rfl, rfl⟩) c hc n hn).1
  · intro c hc
    exact manifestFold_jsById_mem stats.chunks ⟨[], [], []⟩ hids c hc

/-- Witness for C1 at the spec's concrete example. -/
theorem statsToManifest_records_chunks_and_hash_witness :
    objLookup (statsToManifest exampleStats).jsChunksByName "home" = some (some "home.js") ∧
    objLookup (statsToManifest exampleStats).jsChunksById 1 = some (some "home.js") ∧
    objLookup (statsToManifest exampleStats).jsChunksById 2 = some (some "vendor.js") ∧
    (statsToManifest exampleStats).hash = "abc" ∧
    statsToManifest exampleStats =
      ⟨[("home", some "home.js")], [("home", "home.css")],
       [(1, some "home.js"), (2, some "vendor.js")], "abc"⟩ := by
  have h := statsToManifest_records_chunks_and_hash exampleStats (by decide) (by decide)
  refine ⟨?_, ?_, ?_, h.2.2, by decide⟩
  · exact h.1 ⟨1, some "home", ["home.js", "home.css"]⟩ (by decide) "home" (by decide)
  · exact h.2.1 ⟨1, some "home", ["home.js", "home.css"]⟩ (by decide)
  · exact h.2.1 ⟨2, none, ["vendor.js"]⟩ (by decide)

/-- C2: for every named chunk (names unique per compilation), the CSS
entry under its name is exactly the first file at index ≥ 1 of its files
list ending in `.css` — the scan stops at the first match, so later
matches never overwrite it and interleaved non-CSS files are skipped —
and when no file at index ≥ 1 matches, `cssChunksByName` has no entry
for that name. -/
theorem statsToManifest_css_first_match (stats : Stats)
    (hnames : (stats.chunks.filterMap truthyName).Nodup) :
    ∀ c ∈ stats.chunks, ∀ n, truthyName c = some n →
      objLookup (statsToManifest stats).cssChunksByName n =
        (c.files.drop 1).find? (fun f => strEndsWith f ".css") := by
  intro c hc n hn
  exact (manifestFold_byName_mem stats.chunks ⟨[], [], []⟩ hnames
    (fun _ _ _ _ => ⟨rfl, rfl⟩) c hc n hn).2

/-- Witness for C2: the hot-update file before the CSS file is skipped and
`x.css` is selected; chunk `y` without CSS gets no entry. -/
theorem statsToManifest_css_first_match_witness :
    objLookup (statsToManifest cssExampleStats).cssChunksByName "x" = some "x.css" ∧
    objLookup (statsToManifest cssExampleStats).cssChunksByName "y" = none := by
  have h := statsToManifest_css_first_match cssExampleStats (by decide)
  constructor
  · exact (h ⟨1, some "x", ["x.js", "x.abc123.hot-update.js", "x.css"]⟩ (by decide)
      "x" (by decide)).trans (by decide)
  · exact (h ⟨2, some "y", ["y.js"]⟩ (by decide) "y" (by decide)).trans (by decide)

/-- C3 counterexample: the claim's "exactly one entry per (route, format)
pair" fails for every route table — route `a` with format `b` and route
`a-b` with format `default` are two (route, format) pairs deriving the
same entry name `a-b`, and the JS object keeps a single entry (the later
assignment overwrites the earlier one). -/
theorem entrypoints_collision_counterexample :
    (collidingRoutes.routes.map (fun rp => (normalizeRoutesPage rp.2.page).length)).sum = 2 ∧
    entrypointName "a" "b" = entrypointName "a-b" "default" ∧
    (entrypoints collidingRoutes "/dir" "/w/entry.js" false "/static/").length = 1 := by
  refine ⟨by decide, by decide, by decide⟩

/-- C3 (amended): provided the derived entry names of all (route, format)
pairs are pairwise distinct, the EntrypointSet holds exactly one entry per
(route, format) pair — `routeName` for format `default`, `routeName-format`
otherwise — and each entry's module list is the transport-client modules
(hot mode only), then the bootstrap file, then the resolved page module
last. -/
theorem entrypoints_per_pair (routes : RouteTable)
    (routesDirAbsolute bootstrapFile : String) (hot : Bool) (outputUrl : String)
    (hdistinct : ((entrypointEvents routes routesDirAbsolute bootstrapFile hot
      outputUrl).map Prod.fst).Nodup) :
    (entrypoints routes routesDirAbsolute bootstrapFile hot outputUrl).length =
      (routes.routes.map (fun rp => (normalizeRoutesPage rp.2.page).length)).sum ∧
    ∀ rp ∈ routes.routes, ∀ fp ∈ normalizeRoutesPage rp.2.page,
      objLookup (entrypoints routes routesDirAbsolute bootstrapFile hot outputUrl)
        (entrypointName rp.1 fp.1) =
        some (entrypointBase hot outputUrl ++
          [bootstrapFile, requireResolvePage routesDirAbsolute fp.2]) := by
  have hev := entrypoints_eq_foldl_events routes routesDirAbsolute bootstrapFile hot outputUrl
  have hflat := foldl_objInsert_fresh
    (entrypointEvents routes routesDirAbsolute bootstrapFile hot outputUrl) [] hdistinct
    (fun _ _ => rfl)
  constructor
  · rw [hev, hflat, List.nil_append]
    exact entrypointEvents_length routes routesDirAbsolute bootstrapFile hot outputUrl
  · intro rp hrp fp hfp
    rw [hev, hflat, List.nil_append]
    exact objLookup_of_mem_of_nodup hdistinct (mem_entrypointEvents hrp hfp)

/-- Witness for C3 (amended) on a table with two routes and three
(route, format) pairs. -/
theorem entrypoints_per_pair_witness :
    (entrypoints exampleRoutes "/dir" "/w/entry.js" false "/static/").length = 3 ∧
    objLookup (entrypoints exampleRoutes "/dir" "/w/entry.js" false "/static/")
      "About-mobile" = some ["/w/entry.js", "/dir/pages/about-mobile.js"] := by
  have h := entrypoints_per_pair exampleRoutes "/dir" "/w/entry.js" false "/static/" (by decide)
  constructor
  · exact h.1.trans (by decide)
  · exact (h.2 ("About", ⟨"/about", JsValue.undef,
      PageValue.formats [("default", "pages/about.js"), ("mobile", "pages/about-mobile.js")]⟩)
      (by decide) ("mobile", "pages/about-mobile.js") (by decide)).trans (by decide)

/-- C4: the source's own comment (compileClient.js:208) documents that an
empty object method is to be normalized to `undefined`, and the other
empty cases are; but `method === \x7b\x7d` is reference equality against a
fresh literal (always false) and `(\x7b\x7d).length` is `undefined`
(never `=== 0`), so an empty-object method is NOT normalized and is
emitted verbatim as `\x7b\x7d` in the generated file, while `undefined`,
`null`, `""` and `[]` become the match-any sentinel and `"GET"` is
preserved. -/
theorem normalizeMethod_cases :
    normalizeMethod JsValue.undef = JsValue.undef ∧
    normalizeMethod JsValue.null = JsValue.undef ∧
    normalizeMethod (JsValue.str "") = JsValue.undef ∧
    normalizeMethod (JsValue.arr []) = JsValue.undef ∧
    normalizeMethod (JsValue.str "GET") = JsValue.str "GET" ∧
    normalizeMethod (JsValue.obj []) = JsValue.obj [] ∧
    methodField (normalizeMethod (JsValue.obj [])) = "\x7b\x7d" := by
  refine ⟨by decide, by decide, by decide, by decide, by decide, by decide, by decide⟩

/-- C5 counterexample: a named chunk with an empty files list is not
guarded and skipped — both `jsChunksById` and `jsChunksByName` gain an
entry for it, holding JS `undefined` (`files[0]` of an empty array). -/
theorem statsToManifest_empty_files_counterexample :
    objLookup (statsToManifest emptyFilesStats).jsChunksById 7 = some none ∧
    objLookup (statsToManifest emptyFilesStats).jsChunksByName "empty" = some none := by
  decide

/-- C5 (amended): `statsToManifest` has no empty-files guard: a chunk with
no files is processed like any other, recording entries whose value is JS
`undefined` (`files[0]` of an empty list) in `jsChunksByName` (when the
name is truthy) and in `jsChunksById`; only `cssChunksByName` gains no
entry for it. -/
theorem statsToManifest_empty_files_records_undefined (stats : Stats)
    (hids : (stats.chunks.map Chunk.id).Nodup)
    (hnames : (stats.chunks.filterMap truthyName).Nodup) :
    ∀ c ∈ stats.chunks, c.files = [] →
      objLookup (statsToManifest stats).jsChunksById c.id = some none ∧
      ∀ n, truthyName c = some n →
        objLookup (statsToManifest stats).jsChunksByName n = some none ∧
        objLookup (statsToManifest stats).cssChunksByName n = none := by
  intro c hc hfiles
  constructor
  · have h := manifestFold_jsById_mem stats.chunks ⟨[], [], []⟩ hids c hc
    rw [hfiles] at h
    exact h
  · intro n hn
    have h := manifestFold_byName_mem stats.chunks ⟨[], [], []⟩ hnames
      (fun _ _ _ _ => ⟨rfl, rfl⟩) c hc n hn
    rw [hfiles] at h
    exact ⟨h.1, h.2⟩

/-- Witness for C5 (amended) at the empty-files chunk. -/
theorem statsToManifest_empty_files_records_undefined_witness :
    objLookup (statsToManifest emptyFilesStats).jsChunksByName "empty" = some none ∧
    objLookup (statsToManifest emptyFilesStats).cssChunksByName "empty" = none := by
  have h := statsToManifest_empty_files_records_undefined emptyFilesStats
    (by decide) (by decide) ⟨7, some "empty", []⟩ (by decide) rfl
  exact h.2 "empty" (by decide)

/-- C6: when the resolved options have both hot mode and long-term caching
enabled, the synchronous setup phase throws the configuration error before
performing any filesystem mutation — the error branch of the model carries
no effect list, so no directory is created and no bootstrap or routes file
is written. -/
theorem compileClientSetup_hot_longTermCaching_throws (cwd : String) (opts : CompileOptions)
    (hhot : opts.hotD = true) (hltc : opts.longTermCachingD = true) :
    compileClientSetup cwd opts = Except.error hotLongTermCachingError := by
  unfold compileClientSetup
  rw [hhot, hltc]
  rfl

/-- Witness for C6 at explicitly enabled hot and longTermCaching. -/
theorem compileClientSetup_hot_longTermCaching_throws_witness :
    hotCachingOpts.hotD = true ∧ hotCachingOpts.longTermCachingD = true ∧
    compileClientSetup "/cwd" hotCachingOpts = Except.error hotLongTermCachingError :=
  ⟨rfl, rfl, compileClientSetup_hot_longTermCaching_throws "/cwd" hotCachingOpts rfl rfl⟩

/-- C7: the generated server `done` never lets an exception escape to its
caller; when `require` throws, the callback is not invoked and the error
stream receives exactly the message naming the resolved path together with
the stack trace; when `require` succeeds, the callback is invoked with the
unwrapped module. -/
theorem serverDone_isolates_load_failure (requireResult : Except String PageModule)
    (relativePathToPage : String) (cb : String → Option String) :
    (serverDone requireResult relativePathToPage cb).thrown = none ∧
    (∀ stack, requireResult = Except.error stack →
      (serverDone requireResult relativePathToPage cb).callbackArg = none ∧
      (serverDone requireResult relativePathToPage cb).errorLog =
        [loadFailureLog relativePathToPage stack]) ∧
    (∀ m, requireResult = Except.ok m →
      (serverDone requireResult relativePathToPage cb).callbackArg =
        some (unwrapEs6Module m)) := by
  refine ⟨?_, ?_, ?_⟩
  · cases requireResult with
    | error stack => rfl
    | ok m =>
        cases hcb : cb (unwrapEs6Module m) <;> simp [serverDone, hcb]
  · intro stack h
    subst h
    exact ⟨rfl, rfl⟩
  · intro m h
    subst h
    cases hcb : cb (unwrapEs6Module m) <;> simp [serverDone, hcb]

/-- Witness for C7: a failing require logs and skips the callback; a
successful require of an ES module invokes the callback with the default
export. -/
theorem serverDone_isolates_load_failure_witness :
    (serverDone (Except.error "boom-stack") "\"pages/home.js\"" (fun _ => none)).thrown = none ∧
    (serverDone (Except.error "boom-stack") "\"pages/home.js\"" (fun _ => none)).callbackArg
      = none ∧
    (serverDone (Except.error "boom-stack") "\"pages/home.js\"" (fun _ => none)).errorLog
      = [loadFailureLog "\"pages/home.js\"" "boom-stack"] ∧
    (serverDone (Except.ok ⟨true, "homePage", "homeModule"⟩) "\"pages/home.js\""
      (fun _ => none)).callbackArg = some "homePage" := by
  have hfail := serverDone_isolates_load_failure (Except.error "boom-stack")
    "\"pages/home.js\"" (fun _ => none)
  have hok := serverDone_isolates_load_failure (Except.ok ⟨true, "homePage", "homeModule"⟩)
    "\"pages/home.js\"" (fun _ => none)
  exact ⟨hfail.1, (hfail.2.1 "boom-stack" rfl).1, (hfail.2.1 "boom-stack" rfl).2,
    hok.2.2 ⟨true, "homePage", "homeModule"⟩ rfl⟩

/-- C8: the routes-file synthesizer is deterministic — two calls with
identical route table, routes directory, working directory, static URL,
target flag and manifest produce byte-identical file content and the same
target-specific path; the content is a pure function of these six inputs
with no timestamp or randomness source. -/
theorem routesFile_deterministic (r₁ r₂ : RouteTable) (d₁ d₂ w₁ w₂ : String)
    (s₁ s₂ : Option String) (c₁ c₂ : Bool) (m₁ m₂ : Option Manifest)
    (hr : r₁ = r₂) (hd : d₁ = d₂) (hw : w₁ = w₂) (hs : s₁ = s₂) (hc : c₁ = c₂)
    (hm : m₁ = m₂) :
    routesFileContent r₁ d₁ w₁ s₁ c₁ m₁ = routesFileContent r₂ d₂ w₂ s₂ c₂ m₂ ∧
    routesFilePath w₁ c₁ = routesFilePath w₂ c₂ := by
  subst hr; subst hd; subst hw; subst hs; subst hc; subst hm
  exact ⟨rfl, rfl⟩

/-- Witness for C8 on a concrete server-variant synthesis with an embedded
manifest. -/
theorem routesFile_deterministic_witness :
    routesFileContent exampleRoutes "." "/work" (some "/static/") false (some exampleManifest) =
      routesFileContent exampleRoutes "." "/work" (some "/static/") false
        (some exampleManifest) ∧
    routesFilePath "/work" false = "/work/routes_server.js" :=
  ⟨(routesFile_deterministic exampleRoutes exampleRoutes "." "." "/work" "/work"
      (some "/static/") (some "/static/") false false (some exampleManifest)
      (some exampleManifest) rfl rfl rfl rfl rfl rfl).1, rfl⟩

/-- C9 counterexample: the claim's "if both are present, webpackConfig
wins" fails — with `webpackConfig` present but equal to the empty string
and the legacy `webpack-config` key present, the legacy key wins, because
JS `||` tests truthiness rather than presence. -/
theorem userWebpackConfigOpt_empty_string_counterexample :
    userWebpackConfigOpt (some "") (some "legacy.config.js") = some "legacy.config.js" ∧
    userWebpackConfigOpt (some "") (some "legacy.config.js") ≠ some "" := by
  decide

/-- C9 (amended): when `webpackConfig` is absent, compile falls back to
the legacy `webpack-config` option key; when `webpackConfig` is present
and truthy (non-empty), it wins; a present-but-empty `webpackConfig` also
falls back.  The synchronous setup phase carries exactly this choice into
the webpack configuration step. -/
theorem userWebpackConfigOpt_fallback (webpackConfig legacy : Option String) :
    (webpackConfig = none → userWebpackConfigOpt webpackConfig legacy = legacy) ∧
    (∀ s, webpackConfig = some s → s ≠ "" →
      userWebpackConfigOpt webpackConfig legacy = some s) ∧
    (userWebpackConfigOpt (some "") legacy = legacy) ∧
    (∀ cwd opts setup, compileClientSetup cwd opts = Except.ok setup →
      setup.userWebpackConfig =
        userWebpackConfigOpt opts.webpackConfig opts.legacyWebpackConfig) := by
  refine ⟨?_, ?_, rfl, ?_⟩
  · intro h
    subst h
    rfl
  · intro s h hne
    subst h
    simp [userWebpackConfigOpt, jsStringOr, hne]
  · intro cwd opts setup h
    unfold compileClientSetup at h
    split at h
    · exact absurd h (by simp)
    · injection h with h'
      rw [← h']

/-- Witness for C9 (amended): absent webpackConfig falls back to the
legacy key; a non-empty webpackConfig wins over it. -/
theorem userWebpackConfigOpt_fallback_witness :
    userWebpackConfigOpt none (some "legacy.config.js") = some "legacy.config.js" ∧
    userWebpackConfigOpt (some "custom.config.js") (some "legacy.config.js") =
      some "custom.config.js" := by
  have h1 := userWebpackConfigOpt_fallback none (some "legacy.config.js")
  have h2 := userWebpackConfigOpt_fallback (some "custom.config.js") (some "legacy.config.js")
  exact ⟨h1.1 rfl, h2.2.1 "custom.config.js" rfl (by decide)⟩

/-- C10: the dev-server client URL prepends `http:` exactly when the
outputUrl is protocol-relative (starts with `//`) and passes any other
URL through unchanged, and in hot mode every derived entrypoint's first
module is the transport client parameterized with that URL. -/
theorem hot_entrypoints_dev_server_url (outputUrl : String) (routes : RouteTable)
    (routesDirAbsolute bootstrapFile : String) :
    (strStartsWith outputUrl "//" = true →
      webpackDevServerClientUrl outputUrl = "http:" ++ outputUrl) ∧
    (strStartsWith outputUrl "//" = false →
      webpackDevServerClientUrl outputUrl = outputUrl) ∧
    ∀ p ∈ entrypoints routes routesDirAbsolute bootstrapFile true outputUrl,
      p.2.head? =
        some (webpackDevServerClientModule ++ "?" ++ webpackDevServerClientUrl outputUrl) := by
  refine ⟨?_, ?_, ?_⟩
  · intro h
    unfold webpackDevServerClientUrl
    rw [if_pos h]
  · intro h
    unfold webpackDevServerClientUrl
    rw [if_neg (by simp [h])]
  · intro p hp
    obtain ⟨m, hm⟩ :=
      entrypoints_values_shape routes routesDirAbsolute bootstrapFile true outputUrl p hp
    rw [hm]
    rfl

/-- Witness for C10: a protocol-relative URL gains `http:`, a plain URL is
unchanged, and the `Home` entry of a hot-mode derivation starts with the
parameterized transport client. -/
theorem hot_entrypoints_dev_server_url_witness :
    webpackDevServerClientUrl "//0.0.0.0:3001/" = "http://0.0.0.0:3001/" ∧
    webpackDevServerClientUrl "/static/" = "/static/" ∧
    (("Home", ["webpack-dev-server/client?/static/", "webpack/hot/only-dev-server",
        "/w/entry.js", "/dir/pages/home.js"]) : String × List String).2.head? =
      some (webpackDevServerClientModule ++ "?" ++ webpackDevServerClientUrl "/static/") := by
  have hrel := hot_entrypoints_dev_server_url "//0.0.0.0:3001/" exampleRoutes "/dir" "/w/entry.js"
  have habs := hot_entrypoints_dev_server_url "/static/" exampleRoutes "/dir" "/w/entry.js"
  refine ⟨hrel.1 (by decide), habs.2.1 (by decide), ?_⟩
  exact habs.2.2
    ("Home", ["webpack-dev-server/client?/static/", "webpack/hot/only-dev-server",
      "/w/entry.js", "/dir/pages/home.js"]) (by decide)

end ReactServerCli
